import Mathlib

/-!
# EdgeDetectr — verification of the manual Sobel pipeline

Shallow embedding of the hand-written convolution pipeline of the
EdgeDetectr repository: the sequential `AltSobel` pipeline
(`src/backend/operators/src/gradient/alt_sobel.cpp`), its OpenMP variant
`OmpSobel` (`src/backend/operators/src/gradient/omp_sobel.cpp`), the kernel
tables (`include/utils/kernels_util.h`) and the image loading helper
(`src/utils/image_utils.cpp`).

Modelling conventions:
* `vector<vector<T>>` matrices become `List (List T)`; a nested `for` loop
  that fills `out[i][j] = f(i,j)` for `0 ≤ i < H`, `0 ≤ j < W` becomes the
  generator `mkMat H W f`; element reads become `getD` with the C++ value
  the code would read in range (out-of-range reads never occur at the call
  sites the theorems use).
* `uint8_t` samples are `ℕ` (values in `[0,256)`); `int` is `ℤ` (no
  gradient value produced by the pipeline approaches 2³¹).
* The `double` fields `scale`/`delta` (set to `1`/`0` by the constructors
  and never modified) are modelled as `ℚ`; `static_cast<int>` of a double
  is truncation toward zero, `truncQ`.  The grayscale weights
  `0.299/0.587/0.114` are modelled as exact rationals.
* `static_cast<int>(sqrt(x))` for the nonnegative integer `x = gx²+gy²`
  is `Nat.sqrt`; for every value reachable from 8-bit samples through the
  3×3 Sobel kernels (`x ≤ 2·2040²`) the double `sqrt` agrees exactly with
  the integer square root.
* The OpenMP `parallel for` regions write pairwise disjoint cells, each a
  pure function of the immutable previous stage, so the parallel loops are
  modelled by the same sequential generator; thread count has no
  observable counterpart.
-/

/-- Truncation toward zero of a rational, the semantics of C++
`static_cast<int>` applied to a `double` value. -/
def truncQ (q : ℚ) : ℤ :=
  if 0 ≤ q then ⌊q⌋ else -⌊-q⌋

/-- `mkMat H W f` is the `H×W` matrix with entry `f i j`: the result of the
C++ idiom `for (i = 0; i < H; ++i) for (j = 0; j < W; ++j) out[i][j] = f(i,j)`. -/
def mkMat {α : Type} (H W : ℕ) (f : ℕ → ℕ → α) : List (List α) :=
  (List.range H).map fun i => (List.range W).map fun j => f i j

/-- Read entry `(i, j)` of a matrix, with default `d` out of range
(the C++ code never reads out of range at the sites we verify). -/
def at2 {α : Type} (d : α) (m : List (List α)) (i j : ℕ) : α :=
  (m.getD i []).getD j d

/-- A 3-channel image: each pixel is a list of channel samples
(`vector<uint8_t>(3)` in the source). -/
abbrev Mat3 := List (List (List ℕ))

/-- A single-channel 8-bit image (`vector<vector<uint8_t>>`). -/
abbrev GrayMat := List (List ℕ)

/-- A signed gradient field (`vector<vector<int>>`). -/
abbrev GradMat := List (List ℤ)

/-- Read channel `c` of pixel `(i, j)` of a 3-channel image. -/
def chan (m : Mat3) (i j c : ℕ) : ℕ :=
  (at2 ([] : List ℕ) m i j).getD c 0

namespace KernelUtil

/-- `KernelUtil::sobelX` (kernels_util.h, lines 8–12). -/
def sobelX : List (List ℤ) :=
  [[-1, 0, 1],
   [-2, 0, 2],
   [-1, 0, 1]]

/-- `KernelUtil::sobelY` (kernels_util.h, lines 13–17). -/
def sobelY : List (List ℤ) :=
  [[-1, -2, -1],
   [ 0,  0,  0],
   [ 1,  2,  1]]

end KernelUtil

/-- Rotation of a square matrix by 90° clockwise:
entry `(i, j)` of the result is entry `(n-1-j, i)` of the input. -/
def rotate90 (m : List (List ℤ)) : List (List ℤ) :=
  mkMat m.length m.length fun i j => at2 0 m (m.length - 1 - j) i

namespace ImageUtils

/-- `ImageUtils::getImage` (image_utils.cpp, lines 3–11).  `decoded` is the
`cv::Mat` produced by `cv::imread` on the input path: an empty matrix when
the path does not yield a decodable image, its pixel rows otherwise.  An
empty matrix makes the call throw `runtime_error("Could not read the image: "
+ inputPath)`, modelled as `Except.error`. -/
def getImage (decoded : Mat3) (inputPath : String) : Except String Mat3 :=
  if decoded.isEmpty then
    Except.error ("Could not read the image: " ++ inputPath)
  else
    Except.ok decoded

end ImageUtils

/-- The private fields shared by the `AltSobel` and `OmpSobel` classes
(alt_sobel.h lines 14–19, omp_sobel.h lines 15–20): `int ksize`,
`double scale`, `double delta`, `int height`, `int width`. -/
structure SobelState where
  ksize : ℤ
  scale : ℚ
  delta : ℚ
  height : ℤ
  width : ℤ

/-- The shared per-cell accumulation of the four `computeGradientX/Y`
bodies (alt_sobel.cpp lines 75–80 and 96–101, omp_sobel.cpp lines 80–85 and
102–107, all textually identical up to the kernel constant):
`gradient += kernel[ki][kj] * grayImage[i + ki - offset][j + kj - offset]`
over `0 ≤ ki, kj < kernelSize`.  All call sites have `offset ≤ i` and
`offset ≤ j`, so the `ℕ` subtractions agree with the C++ `int` indices. -/
def gradientAt (kernel : List (List ℤ)) (grayImage : GrayMat)
    (i j offset kernelSize : ℕ) : ℤ :=
  ((List.range kernelSize).map fun ki =>
    ((List.range kernelSize).map fun kj =>
      at2 0 kernel ki kj *
        ((at2 0 grayImage (i + ki - offset) (j + kj - offset) : ℕ) : ℤ)).sum).sum

/-- The shared body of the four `computeGradientX/Y` functions
(alt_sobel.cpp lines 67–86 and 88–107, omp_sobel.cpp lines 71–91 and
93–113): `kernelSize = kernel.size()`, `offset = kernelSize / 2`, a
zero-initialised `height×width` field whose interior entries are overwritten
with `static_cast<int>(scale * gradient + delta)`. -/
def sobelLoop (kernel : List (List ℤ)) (scale delta : ℚ)
    (height width : ℕ) (grayImage : GrayMat) : GradMat :=
  let kernelSize := kernel.length
  let offset := kernelSize / 2
  mkMat height width fun i j =>
    if offset ≤ i ∧ i < height - offset ∧ offset ≤ j ∧ j < width - offset then
      truncQ (scale * (gradientAt kernel grayImage i j offset kernelSize : ℚ)
        + delta)
    else 0

/-- The shared body of `AltSobel::combineGradients` (alt_sobel.cpp lines
109–121) and `OmpSobel::combineGradients` (omp_sobel.cpp lines 115–128),
textually identical per-cell math:
`magnitude = static_cast<int>(sqrt(gx*gx + gy*gy))` and the output cell is
`static_cast<uint8_t>(min(255, magnitude))`. -/
def combineGradients (height width : ℕ) (gradX gradY : GradMat) : GrayMat :=
  mkMat height width fun i j =>
    let gx := at2 0 gradX i j
    let gy := at2 0 gradY i j
    let magnitude := Nat.sqrt (gx * gx + gy * gy).toNat
    min 255 magnitude

namespace AltSobel

/-- `AltSobel::AltSobel(int kernelSize)` (alt_sobel.cpp lines 5–8):
member-initialises `ksize(kernelSize), scale(1), delta(0)` and zeroes
`height` and `width`. -/
def construct (kernelSize : ℤ) : SobelState :=
  { ksize := kernelSize, scale := 1, delta := 0, height := 0, width := 0 }

/-- `AltSobel::convertToRGB` (alt_sobel.cpp lines 34–48): the decoded image
is in BGR channel order; the output pixel stores `[pixel[2], pixel[1],
pixel[0]]`, i.e. `[R, G, B]`. -/
def convertToRGB (height width : ℕ) (input : Mat3) : Mat3 :=
  mkMat height width fun i j =>
    [chan input i j 2, chan input i j 1, chan input i j 0]

/-- `AltSobel::convertToGrayscale` (alt_sobel.cpp lines 50–65):
`static_cast<uint8_t>(0.299 * pixel[0] + 0.587 * pixel[1] + 0.114 *
pixel[2])` on the RGB-ordered pixel.  The value lies in `[0, 256)`, so the
`uint8_t` cast is plain truncation. -/
def convertToGrayscale (height width : ℕ) (rgbMatrix : Mat3) : GrayMat :=
  mkMat height width fun i j =>
    (truncQ (0.299 * (chan rgbMatrix i j 0 : ℚ)
           + 0.587 * (chan rgbMatrix i j 1 : ℚ)
           + 0.114 * (chan rgbMatrix i j 2 : ℚ))).toNat

/-- `AltSobel::computeGradientX` (alt_sobel.cpp lines 67–86); the body is
`sobelLoop` applied to `KernelUtil::sobelX`. -/
def computeGradientX (scale delta : ℚ) (height width : ℕ)
    (grayImage : GrayMat) : GradMat :=
  sobelLoop KernelUtil.sobelX scale delta height width grayImage

/-- `AltSobel::computeGradientY` (alt_sobel.cpp lines 88–107); the body is
`sobelLoop` applied to `KernelUtil::sobelY`. -/
def computeGradientY (scale delta : ℚ) (height width : ℕ)
    (grayImage : GrayMat) : GradMat :=
  sobelLoop KernelUtil.sobelY scale delta height width grayImage

/-- The stage composition inside `AltSobel::getEdges` (alt_sobel.cpp lines
14–21): `height`/`width` are taken from the loaded image, then
`convertToRGB`, `convertToGrayscale`, `computeGradientX`,
`computeGradientY`, `combineGradients` run in order. -/
def getEdgesPure (st : SobelState) (image : Mat3) : GrayMat :=
  let height := image.length
  let width := (image.getD 0 []).length
  let rgbImage := convertToRGB height width image
  let grayImage := convertToGrayscale height width rgbImage
  let gradX := computeGradientX st.scale st.delta height width grayImage
  let gradY := computeGradientY st.scale st.delta height width grayImage
  combineGradients height width gradX gradY

/-- `AltSobel::getEdges` (alt_sobel.cpp lines 10–28) with its effects made
explicit: `decoded` is the `cv::imread` result for `inputPath`; the second
component of a successful result lists the files written
(`ImageUtils::writeImage(edges, outputName)`).  When `ImageUtils::getImage`
throws, the exception propagates before any stage runs and nothing is
written. -/
def getEdges (st : SobelState) (decoded : Mat3)
    (inputPath outputName : String) : Except String (GrayMat × List String) := do
  let image ← ImageUtils.getImage decoded inputPath
  let edges := getEdgesPure st image
  pure (edges, [outputName])

end AltSobel

namespace OmpSobel

/-- `OmpSobel::OmpSobel(int kernelSize)` (omp_sobel.cpp lines 7–10):
identical member initialisation to `AltSobel`. -/
def construct (kernelSize : ℤ) : SobelState :=
  { ksize := kernelSize, scale := 1, delta := 0, height := 0, width := 0 }

/-- `OmpSobel::convertToRGB` (omp_sobel.cpp lines 37–51): same channel swap
as `AltSobel::convertToRGB` — output channel 0 is `pixel[2]` (red), channel
1 is `pixel[1]`, channel 2 is `pixel[0]` (blue).  The `omp parallel for`
writes disjoint rows, so the loop is modelled sequentially. -/
def convertToRGB (height width : ℕ) (input : Mat3) : Mat3 :=
  mkMat height width fun i j =>
    [chan input i j 2, chan input i j 1, chan input i j 0]

/-- `OmpSobel::convertToGrayscale` (omp_sobel.cpp lines 53–69):
`static_cast<uint8_t>(0.299 * pixel[2] + 0.587 * pixel[1] + 0.114 *
pixel[0])` — note the channel indices: on the RGB-ordered intermediate this
weights channel 2 (blue) by 0.299 and channel 0 (red) by 0.114, unlike
`AltSobel::convertToGrayscale`. -/
def convertToGrayscale (height width : ℕ) (rgbImage : Mat3) : GrayMat :=
  mkMat height width fun i j =>
    (truncQ (0.299 * (chan rgbImage i j 2 : ℚ)
           + 0.587 * (chan rgbImage i j 1 : ℚ)
           + 0.114 * (chan rgbImage i j 0 : ℚ))).toNat

/-- `OmpSobel::computeGradientX` (omp_sobel.cpp lines 71–91): the same
per-cell body as `AltSobel::computeGradientX` with an `omp parallel for`
over the rows, writing disjoint cells of a pure function of the immutable
gray image, hence modelled by the same sequential loop. -/
def computeGradientX (scale delta : ℚ) (height width : ℕ)
    (grayImage : GrayMat) : GradMat :=
  sobelLoop KernelUtil.sobelX scale delta height width grayImage

/-- `OmpSobel::computeGradientY` (omp_sobel.cpp lines 93–113). -/
def computeGradientY (scale delta : ℚ) (height width : ℕ)
    (grayImage : GrayMat) : GradMat :=
  sobelLoop KernelUtil.sobelY scale delta height width grayImage

/-- The stage composition inside `OmpSobel::getEdges` (omp_sobel.cpp lines
16–35), the same order of stages as `AltSobel::getEdges`. -/
def getEdgesPure (st : SobelState) (image : Mat3) : GrayMat :=
  let height := image.length
  let width := (image.getD 0 []).length
  let rgbImage := convertToRGB height width image
  let grayImage := convertToGrayscale height width rgbImage
  let gradX := computeGradientX st.scale st.delta height width grayImage
  let gradY := computeGradientY st.scale st.delta height width grayImage
  combineGradients height width gradX gradY

/-- `OmpSobel::getEdges` (omp_sobel.cpp lines 16–35) with explicit effects,
as for `AltSobel.getEdges`. -/
def getEdges (st : SobelState) (decoded : Mat3)
    (inputPath outputName : String) : Except String (GrayMat × List String) := do
  let image ← ImageUtils.getImage decoded inputPath
  let edges := getEdgesPure st image
  pure (edges, [outputName])

end OmpSobel

/-- The integer dot-product of a `k×k` kernel with the neighborhood of
`grayImage` samples centered at `(i, j)`, stated the way the specification
words it (§4.2): the sum over kernel indices
`Σ_{ki<k} Σ_{kj<k} kernel[ki][kj] · gray[i+ki-offset][j+kj-offset]`. -/
def dotProductSpec (kernel : List (List ℤ)) (grayImage : GrayMat)
    (i j offset k : ℕ) : ℤ :=
  ∑ ki ∈ Finset.range k, ∑ kj ∈ Finset.range k,
    at2 0 kernel ki kj *
      ((at2 0 grayImage (i + ki - offset) (j + kj - offset) : ℕ) : ℤ)

/-- A `H×W` solid-color image: every pixel carries the same channel
triple `c`. -/
def uniformImg (H W : ℕ) (c : List ℕ) : Mat3 :=
  List.replicate H (List.replicate W c)

/-- 3×3 BGR test image whose left column is pure red (`B=0, G=0, R=255`)
and whose other pixels are black: a concrete input on which the parallel
and sequential grayscale stages disagree. -/
def redColImg : Mat3 :=
  [[[0, 0, 255], [0, 0, 0], [0, 0, 0]],
   [[0, 0, 255], [0, 0, 0], [0, 0, 0]],
   [[0, 0, 255], [0, 0, 0], [0, 0, 0]]]

/-- 3×3 grayscale probe whose only nonzero sample sits at `(0, 2)`, giving
the `sobelX` window at `(1, 1)` the raw sum `1`. -/
def grayProbe : GrayMat :=
  [[0, 0, 1], [0, 0, 0], [0, 0, 0]]

/-! ## Helper lemmas -/

theorem at2_mkMat {α : Type} (d : α) (H W : ℕ) (f : ℕ → ℕ → α) (i j : ℕ)
    (hi : i < H) (hj : j < W) : at2 d (mkMat H W f) i j = f i j := by
  simp [at2, mkMat, List.getD_eq_getElem?_getD, List.getElem?_map,
    List.getElem?_range, hi, hj]

theorem mkMat_congr {α : Type} (H W : ℕ) (f g : ℕ → ℕ → α)
    (h : ∀ i < H, ∀ j < W, f i j = g i j) : mkMat H W f = mkMat H W g := by
  unfold mkMat
  apply List.map_congr_left
  intro i hi
  apply List.map_congr_left
  intro j hj
  exact h i (List.mem_range.mp hi) j (List.mem_range.mp hj)

theorem truncQ_intCast (x : ℤ) : truncQ ((x : ℚ)) = x := by
  unfold truncQ
  rcases le_or_lt 0 x with h | h
  · rw [if_pos (by exact_mod_cast h), Int.floor_intCast]
  · have h2 : ¬ (0 : ℚ) ≤ (x : ℚ) := by
      exact_mod_cast not_le.mpr h
    rw [if_neg h2, ← Int.cast_neg, Int.floor_intCast]
    omega

/-- The exact-rational grayscale formula of the source, reduced to integer
arithmetic: `trunc(0.299 r + 0.587 g + 0.114 b) = (299r + 587g + 114b) / 1000`. -/
theorem truncQ_luma (r g b : ℕ) :
    (truncQ (0.299 * (r : ℚ) + 0.587 * (g : ℚ) + 0.114 * (b : ℚ))).toNat
      = (299 * r + 587 * g + 114 * b) / 1000 := by
  have h : (0.299 * (r : ℚ) + 0.587 * (g : ℚ) + 0.114 * (b : ℚ))
      = ((299 * r + 587 * g + 114 * b : ℕ) : ℚ) / 1000 := by
    push_cast
    norm_num
    ring
  rw [h]
  unfold truncQ
  rw [if_pos (by positivity), Int.floor_toNat,
    show ((1000 : ℚ)) = ((1000 : ℕ) : ℚ) by norm_num,
    Nat.floor_div_nat, Nat.floor_natCast]

theorem at2_sobelLoop (kernel : List (List ℤ)) (s d : ℚ) (H W : ℕ)
    (g : GrayMat) (i j : ℕ) (hi : i < H) (hj : j < W) :
    at2 0 (sobelLoop kernel s d H W g) i j =
      if kernel.length / 2 ≤ i ∧ i < H - kernel.length / 2 ∧
          kernel.length / 2 ≤ j ∧ j < W - kernel.length / 2 then
        truncQ (s * (gradientAt kernel g i j (kernel.length / 2)
          kernel.length : ℚ) + d)
      else 0 := by
  unfold sobelLoop
  exact at2_mkMat _ _ _ _ i j hi hj

theorem at2_combineGradients (H W : ℕ) (gX gY : GradMat) (i j : ℕ)
    (hi : i < H) (hj : j < W) :
    at2 0 (combineGradients H W gX gY) i j =
      min 255 (Nat.sqrt (at2 0 gX i j * at2 0 gX i j
        + at2 0 gY i j * at2 0 gY i j).toNat) := by
  unfold combineGradients
  exact at2_mkMat _ _ _ _ i j hi hj

theorem sqrt_eq_of (n k : ℕ) (h1 : k * k ≤ n) (h2 : n < (k + 1) * (k + 1)) :
    Nat.sqrt n = k := by
  have ha : k ≤ Nat.sqrt n := Nat.le_sqrt.mpr h1
  have hb : Nat.sqrt n < k + 1 := Nat.sqrt_lt.mpr h2
  omega

/-- `AltSobel.convertToGrayscale` in pure integer arithmetic. -/
theorem convertToGrayscale_alt_natForm (H W : ℕ) (m : Mat3) :
    AltSobel.convertToGrayscale H W m =
      mkMat H W fun i j =>
        (299 * chan m i j 0 + 587 * chan m i j 1 + 114 * chan m i j 2) / 1000 := by
  unfold AltSobel.convertToGrayscale
  exact mkMat_congr _ _ _ _ fun i _ j _ => truncQ_luma _ _ _

/-- `OmpSobel.convertToGrayscale` in pure integer arithmetic: weight 299
lands on channel 2 and weight 114 on channel 0. -/
theorem convertToGrayscale_omp_natForm (H W : ℕ) (m : Mat3) :
    OmpSobel.convertToGrayscale H W m =
      mkMat H W fun i j =>
        (299 * chan m i j 2 + 587 * chan m i j 1 + 114 * chan m i j 0) / 1000 := by
  unfold OmpSobel.convertToGrayscale
  exact mkMat_congr _ _ _ _ fun i _ j _ => truncQ_luma _ _ _

/-- At the constructed state (`scale = 1`, `delta = 0`) the affine step is
the identity and the gradient loop is pure integer arithmetic. -/
theorem sobelLoop_one_zero (kernel : List (List ℤ)) (H W : ℕ) (g : GrayMat) :
    sobelLoop kernel 1 0 H W g =
      mkMat H W fun i j =>
        if kernel.length / 2 ≤ i ∧ i < H - kernel.length / 2 ∧
            kernel.length / 2 ≤ j ∧ j < W - kernel.length / 2 then
          gradientAt kernel g i j (kernel.length / 2) kernel.length
        else 0 := by
  unfold sobelLoop
  apply mkMat_congr
  intro i _ j _
  by_cases hcond : kernel.length / 2 ≤ i ∧ i < H - kernel.length / 2 ∧
      kernel.length / 2 ≤ j ∧ j < W - kernel.length / 2
  · rw [if_pos hcond, if_pos hcond, one_mul, add_zero, truncQ_intCast]
  · rw [if_neg hcond, if_neg hcond]

theorem list_range_map_sum (n : ℕ) (f : ℕ → ℤ) :
    ((List.range n).map f).sum = ∑ x ∈ Finset.range n, f x := by
  induction n with
  | zero => simp
  | succ m ih =>
    rw [List.range_succ, List.map_append, List.sum_append,
      Finset.sum_range_succ, ih]
    simp

/-- The accumulation loop of the gradient stage computes exactly the
dot-product the specification describes. -/
theorem gradientAt_eq_dotProductSpec (kernel : List (List ℤ)) (g : GrayMat)
    (i j offset k : ℕ) :
    gradientAt kernel g i j offset k = dotProductSpec kernel g i j offset k := by
  unfold gradientAt dotProductSpec
  rw [list_range_map_sum]
  refine Finset.sum_congr rfl fun ki _ => ?_
  rw [list_range_map_sum]

theorem sum_map_mul_const {α : Type} (l : List α) (f : α → ℤ) (r : ℤ) :
    (l.map fun x => f x * r).sum = (l.map f).sum * r := by
  induction l with
  | nil => simp
  | cons a t ih => simp [ih, add_mul]

/-- When every sample the window reads equals the constant `K`, the
gradient accumulation collapses to (sum of kernel coefficients) times `K`. -/
theorem gradientAt_const (kernel : List (List ℤ)) (g : GrayMat) (K : ℕ)
    (i j offset ksize : ℕ)
    (h : ∀ ki < ksize, ∀ kj < ksize,
      at2 0 g (i + ki - offset) (j + kj - offset) = K) :
    gradientAt kernel g i j offset ksize
      = (((List.range ksize).map fun ki =>
          ((List.range ksize).map fun kj => at2 0 kernel ki kj).sum).sum) * K := by
  unfold gradientAt
  rw [← sum_map_mul_const]
  apply congrArg
  apply List.map_congr_left
  intro ki hki
  rw [← sum_map_mul_const]
  apply congrArg
  apply List.map_congr_left
  intro kj hkj
  rw [h ki (List.mem_range.mp hki) kj (List.mem_range.mp hkj)]

theorem chan_uniformImg (H W : ℕ) (c : List ℕ) (i j t : ℕ)
    (hi : i < H) (hj : j < W) :
    chan (uniformImg H W c) i j t = c.getD t 0 := by
  simp [chan, at2, uniformImg, List.getD_eq_getElem?_getD,
    List.getElem?_replicate, hi, hj]

theorem chan_convertToRGB_alt (H W : ℕ) (m : Mat3) (i j t : ℕ)
    (hi : i < H) (hj : j < W) :
    chan (AltSobel.convertToRGB H W m) i j t
      = [chan m i j 2, chan m i j 1, chan m i j 0].getD t 0 := by
  unfold chan AltSobel.convertToRGB
  rw [at2_mkMat _ _ _ _ i j hi hj]
  rfl

/-- The grayscale stage applied to a solid-color image is a constant
matrix. -/
theorem gray_alt_uniform (H W : ℕ) (c : List ℕ) :
    AltSobel.convertToGrayscale H W
        (AltSobel.convertToRGB H W (uniformImg H W c))
      = mkMat H W fun _ _ =>
          (299 * c.getD 2 0 + 587 * c.getD 1 0 + 114 * c.getD 0 0) / 1000 := by
  rw [convertToGrayscale_alt_natForm]
  apply mkMat_congr
  intro i hi j hj
  rw [chan_convertToRGB_alt H W _ i j 0 hi hj,
    chan_convertToRGB_alt H W _ i j 1 hi hj,
    chan_convertToRGB_alt H W _ i j 2 hi hj]
  simp [chan_uniformImg H W c i j _ hi hj]



/-! ## Claim theorems -/

/-- C9: the two fixed 3×3 kernels of the pipeline are related by a 90
degree rotation — rotating the sobelX coefficient matrix clockwise by 90
degrees yields exactly the sobelY coefficient matrix. -/
theorem claim_kernel_rotation :
    rotate90 KernelUtil.sobelX = KernelUtil.sobelY := by decide

/-- C10: the kernelSize constructor argument is stored in the `ksize`
field and never influences the computation — for any two constructor
arguments `k1`, `k2`, the AltSobel and OmpSobel pipelines (pure stage
composition as well as the effectful `getEdges`) produce identical
outputs. -/
theorem claim_ksize_unused (k1 k2 : ℤ) (image decoded : Mat3)
    (inputPath outputName : String) :
    (AltSobel.construct k1).ksize = k1 ∧
    AltSobel.getEdgesPure (AltSobel.construct k1) image
        = AltSobel.getEdgesPure (AltSobel.construct k2) image ∧
    OmpSobel.getEdgesPure (OmpSobel.construct k1) image
        = OmpSobel.getEdgesPure (OmpSobel.construct k2) image ∧
    AltSobel.getEdges (AltSobel.construct k1) decoded inputPath outputName
        = AltSobel.getEdges (AltSobel.construct k2) decoded inputPath outputName ∧
    OmpSobel.getEdges (OmpSobel.construct k1) decoded inputPath outputName
        = OmpSobel.getEdges (OmpSobel.construct k2) decoded inputPath outputName :=
  ⟨rfl, rfl, rfl, rfl, rfl⟩

/-- C5: for every pair of gradient fields and every pixel `(i,j)` inside
the `H×W` output, `combineGradients` outputs
`min(255, floor(sqrt(gx² + gy²)))`, and in particular no output pixel
exceeds 255 (the output type ℕ also rules out negative values; the sum of
squares is nonnegative, so the `uint8_t` cast of `min(255, ·)` cannot
wrap). -/
theorem claim_combine_clamp (H W : ℕ) (gX gY : GradMat) (i j : ℕ)
    (hi : i < H) (hj : j < W) :
    at2 0 (combineGradients H W gX gY) i j
        = min 255 (Nat.sqrt ((at2 0 gX i j ^ 2 + at2 0 gY i j ^ 2).toNat)) ∧
    at2 0 (combineGradients H W gX gY) i j ≤ 255 := by
  have h := at2_combineGradients H W gX gY i j hi hj
  refine ⟨?_, ?_⟩
  · rw [h, pow_two, pow_two]
  · rw [h]
    exact min_le_left _ _

theorem claim_combine_clamp_witness :
    ((0 : ℕ) < 1 ∧ (0 : ℕ) < 1) ∧
    (at2 0 (combineGradients 1 1 [[3]] [[4]]) 0 0
        = min 255 (Nat.sqrt ((at2 0 [[(3 : ℤ)]] 0 0 ^ 2
            + at2 0 [[(4 : ℤ)]] 0 0 ^ 2).toNat)) ∧
     at2 0 (combineGradients 1 1 [[3]] [[4]]) 0 0 ≤ 255) :=
  ⟨⟨Nat.one_pos, Nat.one_pos⟩,
   claim_combine_clamp 1 1 [[3]] [[4]] 0 0 (by decide) (by decide)⟩

/-- C6: when the input path does not yield a decodable non-empty image
(the decoded matrix is empty), `getEdges` of both pipelines fails with the
thrown `runtime_error` carrying the offending path, before any stage runs:
the result is the bare error, so no EdgeMap is returned and the list of
written files that a successful run would carry never comes into
existence. -/
theorem claim_load_error_aborts (st1 st2 : SobelState) (decoded : Mat3)
    (inputPath outputName : String) (h : decoded.isEmpty = true) :
    AltSobel.getEdges st1 decoded inputPath outputName
        = Except.error ("Could not read the image: " ++ inputPath) ∧
    OmpSobel.getEdges st2 decoded inputPath outputName
        = Except.error ("Could not read the image: " ++ inputPath) := by
  have hgi : ImageUtils.getImage decoded inputPath
      = Except.error ("Could not read the image: " ++ inputPath) := by
    unfold ImageUtils.getImage
    rw [if_pos h]
  constructor
  · unfold AltSobel.getEdges
    rw [hgi]
    rfl
  · unfold OmpSobel.getEdges
    rw [hgi]
    rfl

theorem claim_load_error_aborts_witness :
    (([] : Mat3).isEmpty = true) ∧
    (AltSobel.getEdges (AltSobel.construct 3) [] "missing.jpg" "out.jpg"
        = Except.error ("Could not read the image: " ++ "missing.jpg") ∧
     OmpSobel.getEdges (OmpSobel.construct 3) [] "missing.jpg" "out.jpg"
        = Except.error ("Could not read the image: " ++ "missing.jpg")) :=
  ⟨rfl, claim_load_error_aborts (AltSobel.construct 3) (OmpSobel.construct 3)
    [] "missing.jpg" "out.jpg" rfl⟩

/-- C2: the claim states that both grayscale stages output
`trunc(0.299·red + 0.587·green + 0.114·blue)`.  On the RGB-ordered pixel
`[255, 0, 0]` (pure red) that formula gives 76, and
`AltSobel::convertToGrayscale` indeed outputs 76 — but
`OmpSobel::convertToGrayscale` outputs 29 = `trunc(0.114·255)`: it applies
the 0.299 weight to channel 2 (blue) and the 0.114 weight to channel 0
(red), contradicting its own header documentation of the NTSC formula. -/
theorem claim_grayscale_weights :
    at2 0 (AltSobel.convertToGrayscale 1 1 [[[255, 0, 0]]]) 0 0 = 76 ∧
    at2 0 (OmpSobel.convertToGrayscale 1 1 [[[255, 0, 0]]]) 0 0 = 29 ∧
    (truncQ (0.299 * ((255 : ℕ) : ℚ) + 0.587 * ((0 : ℕ) : ℚ)
        + 0.114 * ((0 : ℕ) : ℚ))).toNat = 76 ∧
    (29 : ℕ) ≠ 76 := by
  refine ⟨?_, ?_, ?_, by decide⟩
  · rw [convertToGrayscale_alt_natForm]
    decide
  · rw [convertToGrayscale_omp_natForm]
    decide
  · rw [truncQ_luma 255 0 0]

/-- C1: the claim states that the parallel pipeline produces an EdgeMap
pixel-for-pixel identical to the sequential one on every input.  The code
refutes it: on the 3×3 BGR image whose left column is pure red, the
sequential EdgeMap holds 255 at pixel `(1,1)` while the parallel EdgeMap
holds 116, because `OmpSobel::convertToGrayscale` reads the red and blue
channels of its RGB-ordered intermediate with swapped weights.  Apart from
that grayscale slip the two pipelines share identical per-cell math, and
the OpenMP loops write disjoint cells of pure per-cell functions, so
worker count and scheduling have no further observable effect. -/
theorem claim_parallel_equals_sequential :
    at2 0 (AltSobel.getEdgesPure (AltSobel.construct 3) redColImg) 1 1 = 255 ∧
    at2 0 (OmpSobel.getEdgesPure (OmpSobel.construct 3) redColImg) 1 1 = 116 := by
  constructor
  · have hshape : AltSobel.getEdgesPure (AltSobel.construct 3) redColImg
        = combineGradients 3 3
            (AltSobel.computeGradientX 1 0 3 3
              (AltSobel.convertToGrayscale 3 3
                (AltSobel.convertToRGB 3 3 redColImg)))
            (AltSobel.computeGradientY 1 0 3 3
              (AltSobel.convertToGrayscale 3 3
                (AltSobel.convertToRGB 3 3 redColImg))) := rfl
    have h1 : AltSobel.convertToRGB 3 3 redColImg
        = [[[255, 0, 0], [0, 0, 0], [0, 0, 0]],
           [[255, 0, 0], [0, 0, 0], [0, 0, 0]],
           [[255, 0, 0], [0, 0, 0], [0, 0, 0]]] := by decide
    have h2 : AltSobel.convertToGrayscale 3 3
          [[[255, 0, 0], [0, 0, 0], [0, 0, 0]],
           [[255, 0, 0], [0, 0, 0], [0, 0, 0]],
           [[255, 0, 0], [0, 0, 0], [0, 0, 0]]]
        = [[76, 0, 0], [76, 0, 0], [76, 0, 0]] := by
      rw [convertToGrayscale_alt_natForm]
      decide
    have h3 : AltSobel.computeGradientX 1 0 3 3 [[76, 0, 0], [76, 0, 0], [76, 0, 0]]
        = [[0, 0, 0], [0, -304, 0], [0, 0, 0]] := by
      unfold AltSobel.computeGradientX
      rw [sobelLoop_one_zero]
      decide
    have h4 : AltSobel.computeGradientY 1 0 3 3 [[76, 0, 0], [76, 0, 0], [76, 0, 0]]
        = [[0, 0, 0], [0, 0, 0], [0, 0, 0]] := by
      unfold AltSobel.computeGradientY
      rw [sobelLoop_one_zero]
      decide
    rw [hshape, h1, h2, h3, h4,
      at2_combineGradients _ _ _ _ 1 1 (by norm_num) (by norm_num)]
    have h : Nat.sqrt 92416 = 304 := sqrt_eq_of _ _ (by norm_num) (by norm_num)
    norm_num [at2]
    rw [show Int.toNat 92416 = 92416 from rfl, h]
    norm_num
  · have hshape : OmpSobel.getEdgesPure (OmpSobel.construct 3) redColImg
        = combineGradients 3 3
            (OmpSobel.computeGradientX 1 0 3 3
              (OmpSobel.convertToGrayscale 3 3
                (OmpSobel.convertToRGB 3 3 redColImg)))
            (OmpSobel.computeGradientY 1 0 3 3
              (OmpSobel.convertToGrayscale 3 3
                (OmpSobel.convertToRGB 3 3 redColImg))) := rfl
    have h1 : OmpSobel.convertToRGB 3 3 redColImg
        = [[[255, 0, 0], [0, 0, 0], [0, 0, 0]],
           [[255, 0, 0], [0, 0, 0], [0, 0, 0]],
           [[255, 0, 0], [0, 0, 0], [0, 0, 0]]] := by decide
    have h2 : OmpSobel.convertToGrayscale 3 3
          [[[255, 0, 0], [0, 0, 0], [0, 0, 0]],
           [[255, 0, 0], [0, 0, 0], [0, 0, 0]],
           [[255, 0, 0], [0, 0, 0], [0, 0, 0]]]
        = [[29, 0, 0], [29, 0, 0], [29, 0, 0]] := by
      rw [convertToGrayscale_omp_natForm]
      decide
    have h3 : OmpSobel.computeGradientX 1 0 3 3 [[29, 0, 0], [29, 0, 0], [29, 0, 0]]
        = [[0, 0, 0], [0, -116, 0], [0, 0, 0]] := by
      unfold OmpSobel.computeGradientX
      rw [sobelLoop_one_zero]
      decide
    have h4 : OmpSobel.computeGradientY 1 0 3 3 [[29, 0, 0], [29, 0, 0], [29, 0, 0]]
        = [[0, 0, 0], [0, 0, 0], [0, 0, 0]] := by
      unfold OmpSobel.computeGradientY
      rw [sobelLoop_one_zero]
      decide
    rw [hshape, h1, h2, h3, h4,
      at2_combineGradients _ _ _ _ 1 1 (by norm_num) (by norm_num)]
    have h : Nat.sqrt 13456 = 116 := sqrt_eq_of _ _ (by norm_num) (by norm_num)
    norm_num [at2]
    rw [show Int.toNat 13456 = 13456 from rfl, h]
    omega

/-- C3: for every kernel of odd size `k` (the gradient loops read the size
from the kernel table itself; `AltSobel.computeGradientX` and
`AltSobel.computeGradientY` are `sobelLoop` at `sobelX` and `sobelY`), on a
grayscale image with `H, W > 0`, every interior pixel of the output equals
`round_toward_zero(scale · S + delta)`, where `S` is the integer
dot-product of the kernel with the `k×k` neighborhood of samples centered
at `(i, j)`. -/
theorem claim_gradient_interior_formula (kernel : List (List ℤ)) (k : ℕ)
    (s d : ℚ) (H W : ℕ) (g : GrayMat) (i j : ℕ)
    (hk : kernel.length = k) (hodd : k % 2 = 1) (hH : 0 < H) (hW : 0 < W)
    (hi1 : k / 2 ≤ i) (hi2 : i < H - k / 2)
    (hj1 : k / 2 ≤ j) (hj2 : j < W - k / 2) :
    at2 0 (sobelLoop kernel s d H W g) i j
      = truncQ (s * (dotProductSpec kernel g i j (k / 2) k : ℚ) + d) := by
  have hi : i < H := by omega
  have hj : j < W := by omega
  rw [at2_sobelLoop kernel s d H W g i j hi hj, hk,
    if_pos ⟨hi1, hi2, hj1, hj2⟩, gradientAt_eq_dotProductSpec]

theorem claim_gradient_interior_formula_witness :
    (KernelUtil.sobelX.length = 3 ∧ 3 % 2 = 1 ∧ (0 : ℕ) < 3 ∧
      3 / 2 ≤ 1 ∧ (1 : ℕ) < 3 - 3 / 2) ∧
    at2 0 (sobelLoop KernelUtil.sobelX 1 0 3 3 grayProbe) 1 1
      = truncQ (1 * (dotProductSpec KernelUtil.sobelX grayProbe 1 1 (3 / 2) 3 : ℚ)
          + 0) :=
  ⟨⟨rfl, rfl, by decide, by decide, by decide⟩,
   claim_gradient_interior_formula KernelUtil.sobelX 3 1 0 3 3 grayProbe 1 1
     rfl rfl (by decide) (by decide) (by decide) (by decide) (by decide) (by decide)⟩

/-- C4: with the 3×3 kernels (offset 1), every cell of row 0, row `H-1`,
column 0 and column `W-1` is exactly zero in both gradient fields, and the
combined EdgeMap is zero at those border cells. -/
theorem claim_border_zero (s d : ℚ) (H W : ℕ) (g : GrayMat) (i j : ℕ)
    (hi : i < H) (hj : j < W)
    (hb : i = 0 ∨ i = H - 1 ∨ j = 0 ∨ j = W - 1) :
    at2 0 (AltSobel.computeGradientX s d H W g) i j = 0 ∧
    at2 0 (AltSobel.computeGradientY s d H W g) i j = 0 ∧
    at2 0 (combineGradients H W (AltSobel.computeGradientX s d H W g)
        (AltSobel.computeGradientY s d H W g)) i j = 0 := by
  have hX : at2 0 (AltSobel.computeGradientX s d H W g) i j = 0 := by
    unfold AltSobel.computeGradientX
    rw [at2_sobelLoop _ _ _ _ _ _ i j hi hj,
      if_neg (by simp only [show KernelUtil.sobelX.length = 3 from rfl]; omega)]
  have hY : at2 0 (AltSobel.computeGradientY s d H W g) i j = 0 := by
    unfold AltSobel.computeGradientY
    rw [at2_sobelLoop _ _ _ _ _ _ i j hi hj,
      if_neg (by simp only [show KernelUtil.sobelY.length = 3 from rfl]; omega)]
  refine ⟨hX, hY, ?_⟩
  rw [at2_combineGradients _ _ _ _ i j hi hj, hX, hY]
  simp

theorem claim_border_zero_witness :
    ((0 : ℕ) < 3 ∧ (1 : ℕ) < 3 ∧
      ((0 : ℕ) = 0 ∨ (0 : ℕ) = 3 - 1 ∨ (1 : ℕ) = 0 ∨ (1 : ℕ) = 3 - 1)) ∧
    (at2 0 (AltSobel.computeGradientX 1 0 3 3 grayProbe) 0 1 = 0 ∧
     at2 0 (AltSobel.computeGradientY 1 0 3 3 grayProbe) 0 1 = 0 ∧
     at2 0 (combineGradients 3 3 (AltSobel.computeGradientX 1 0 3 3 grayProbe)
        (AltSobel.computeGradientY 1 0 3 3 grayProbe)) 0 1 = 0) :=
  ⟨⟨by decide, by decide, Or.inl rfl⟩,
   claim_border_zero 1 0 3 3 grayProbe 0 1 (by decide) (by decide) (Or.inl rfl)⟩

/-- C7: a uniform solid-color input produces an all-zero EdgeMap: the
coefficients of sobelX and of sobelY each sum to zero, so the gradient is
zero at every interior pixel, border cells are zero by the border policy,
and the combined magnitude is zero at every pixel of the output. -/
theorem claim_uniform_zero_edges (kk : ℤ) (H W : ℕ) (c : List ℕ) (i j : ℕ)
    (hH : 0 < H) (hi : i < H) (hj : j < W) :
    (((List.range 3).map fun ki =>
        ((List.range 3).map fun kj => at2 0 KernelUtil.sobelX ki kj).sum).sum
      = 0) ∧
    (((List.range 3).map fun ki =>
        ((List.range 3).map fun kj => at2 0 KernelUtil.sobelY ki kj).sum).sum
      = 0) ∧
    at2 0 (AltSobel.getEdgesPure (AltSobel.construct kk) (uniformImg H W c)) i j
      = 0 := by
  refine ⟨by decide, by decide, ?_⟩
  have hlen : (uniformImg H W c).length = H := by simp [uniformImg]
  have hwid : ((uniformImg H W c).getD 0 []).length = W := by
    obtain ⟨n, rfl⟩ : ∃ n, H = n + 1 := ⟨H - 1, by omega⟩
    simp [uniformImg, List.replicate_succ]
  simp only [AltSobel.getEdgesPure, AltSobel.construct, hlen, hwid]
  rw [gray_alt_uniform]
  rw [at2_combineGradients _ _ _ _ i j hi hj]
  have hzX : at2 0 (AltSobel.computeGradientX 1 0 H W
      (mkMat H W fun _ _ =>
        (299 * c.getD 2 0 + 587 * c.getD 1 0 + 114 * c.getD 0 0) / 1000)) i j
      = 0 := by
    unfold AltSobel.computeGradientX
    rw [at2_sobelLoop _ _ _ _ _ _ i j hi hj]
    simp only [show KernelUtil.sobelX.length = 3 from rfl]
    by_cases hc : 3 / 2 ≤ i ∧ i < H - 3 / 2 ∧ 3 / 2 ≤ j ∧ j < W - 3 / 2
    · rw [if_pos hc]
      have hall : ∀ ki < 3, ∀ kj < 3,
          at2 0 (mkMat H W fun _ _ =>
            (299 * c.getD 2 0 + 587 * c.getD 1 0 + 114 * c.getD 0 0) / 1000)
            (i + ki - 3 / 2) (j + kj - 3 / 2)
          = (299 * c.getD 2 0 + 587 * c.getD 1 0 + 114 * c.getD 0 0) / 1000 := by
        intro ki hki kj hkj
        exact at2_mkMat _ _ _ _ _ _ (by omega) (by omega)
      rw [gradientAt_const _ _ _ _ _ _ _ hall]
      rw [show (((List.range 3).map fun ki =>
          ((List.range 3).map fun kj => at2 0 KernelUtil.sobelX ki kj).sum).sum)
        = 0 from by decide]
      norm_num [truncQ]
    · rw [if_neg hc]
  have hzY : at2 0 (AltSobel.computeGradientY 1 0 H W
      (mkMat H W fun _ _ =>
        (299 * c.getD 2 0 + 587 * c.getD 1 0 + 114 * c.getD 0 0) / 1000)) i j
      = 0 := by
    unfold AltSobel.computeGradientY
    rw [at2_sobelLoop _ _ _ _ _ _ i j hi hj]
    simp only [show KernelUtil.sobelY.length = 3 from rfl]
    by_cases hc : 3 / 2 ≤ i ∧ i < H - 3 / 2 ∧ 3 / 2 ≤ j ∧ j < W - 3 / 2
    · rw [if_pos hc]
      have hall : ∀ ki < 3, ∀ kj < 3,
          at2 0 (mkMat H W fun _ _ =>
            (299 * c.getD 2 0 + 587 * c.getD 1 0 + 114 * c.getD 0 0) / 1000)
            (i + ki - 3 / 2) (j + kj - 3 / 2)
          = (299 * c.getD 2 0 + 587 * c.getD 1 0 + 114 * c.getD 0 0) / 1000 := by
        intro ki hki kj hkj
        exact at2_mkMat _ _ _ _ _ _ (by omega) (by omega)
      rw [gradientAt_const _ _ _ _ _ _ _ hall]
      rw [show (((List.range 3).map fun ki =>
          ((List.range 3).map fun kj => at2 0 KernelUtil.sobelY ki kj).sum).sum)
        = 0 from by decide]
      norm_num [truncQ]
    · rw [if_neg hc]
  rw [hzX, hzY]
  simp

theorem claim_uniform_zero_edges_witness :
    ((0 : ℕ) < 3 ∧ (1 : ℕ) < 3 ∧ (2 : ℕ) < 3) ∧
    at2 0 (AltSobel.getEdgesPure (AltSobel.construct 3)
        (uniformImg 3 3 [10, 20, 30])) 1 2 = 0 :=
  ⟨⟨by decide, by decide, by decide⟩,
   (claim_uniform_zero_edges 3 3 3 [10, 20, 30] 1 2
     (by decide) (by decide) (by decide)).2.2⟩

/-- C8 counterexample: the claim states that doubling the scale doubles
every gradient value with non-zero raw sum, for every scale.  It is false
for the double scale 0.5: on the probe image the raw sum at `(1,1)` is 1,
the gradient with scale `2 · 0.5 = 1` is 1, the gradient with scale 0.5 is
`trunc(0.5) = 0`, and `1 ≠ 2 · 0`. -/
theorem claim_scale_doubling_counterexample :
    dotProductSpec KernelUtil.sobelX grayProbe 1 1 1 3 ≠ 0 ∧
    at2 0 (AltSobel.computeGradientX (2 * (1 / 2 : ℚ)) 0 3 3 grayProbe) 1 1 = 1 ∧
    at2 0 (AltSobel.computeGradientX (1 / 2 : ℚ) 0 3 3 grayProbe) 1 1 = 0 ∧
    (1 : ℤ) ≠ 2 * 0 := by
  refine ⟨by decide, ?_, ?_, by decide⟩
  · rw [show (2 * (1 / 2 : ℚ)) = 1 from by norm_num]
    unfold AltSobel.computeGradientX
    rw [sobelLoop_one_zero]
    decide
  · unfold AltSobel.computeGradientX
    rw [at2_sobelLoop _ _ _ _ _ _ 1 1 (by norm_num) (by norm_num),
      if_pos (by simp only [show KernelUtil.sobelX.length = 3 from rfl]; omega),
      show gradientAt KernelUtil.sobelX grayProbe 1 1
        (KernelUtil.sobelX.length / 2) KernelUtil.sobelX.length = 1 from by decide]
    norm_num [truncQ]

/-- C8 as amended: for every integer scale `n`, running the gradient
computation with scale `2n` instead of `n` (delta held at 0) yields exactly
twice the gradient value at every interior pixel whose raw kernel sum is
non-zero — the original claim restricted to scales whose product with the
raw sum has no fractional part, which the truncation after the affine step
otherwise destroys. -/
theorem claim_scale_doubling_integer (kernel : List (List ℤ)) (n : ℤ)
    (H W : ℕ) (g : GrayMat) (i j : ℕ)
    (hc : kernel.length / 2 ≤ i ∧ i < H - kernel.length / 2 ∧
      kernel.length / 2 ≤ j ∧ j < W - kernel.length / 2)
    (hnz : gradientAt kernel g i j (kernel.length / 2) kernel.length ≠ 0) :
    at2 0 (sobelLoop kernel (2 * (n : ℚ)) 0 H W g) i j
      = 2 * at2 0 (sobelLoop kernel (n : ℚ) 0 H W g) i j := by
  have hi : i < H := by omega
  have hj : j < W := by omega
  rw [at2_sobelLoop _ _ _ _ _ _ i j hi hj, at2_sobelLoop _ _ _ _ _ _ i j hi hj,
    if_pos hc, if_pos hc]
  set S := gradientAt kernel g i j (kernel.length / 2) kernel.length with hS
  rw [show (2 * (n : ℚ)) * (S : ℚ) + 0 = ((2 * n * S : ℤ) : ℚ) from by
      push_cast; ring,
    show (n : ℚ) * (S : ℚ) + 0 = ((n * S : ℤ) : ℚ) from by push_cast; ring,
    truncQ_intCast, truncQ_intCast]
  ring

theorem claim_scale_doubling_integer_witness :
    ((KernelUtil.sobelX.length / 2 ≤ 1 ∧
        1 < 3 - KernelUtil.sobelX.length / 2 ∧
        KernelUtil.sobelX.length / 2 ≤ 1 ∧
        1 < 3 - KernelUtil.sobelX.length / 2) ∧
      gradientAt KernelUtil.sobelX grayProbe 1 1
        (KernelUtil.sobelX.length / 2) KernelUtil.sobelX.length ≠ 0) ∧
    at2 0 (sobelLoop KernelUtil.sobelX (2 * ((1 : ℤ) : ℚ)) 0 3 3 grayProbe) 1 1
      = 2 * at2 0 (sobelLoop KernelUtil.sobelX ((1 : ℤ) : ℚ) 0 3 3 grayProbe) 1 1 :=
  ⟨⟨by decide, by decide⟩,
   claim_scale_doubling_integer KernelUtil.sobelX 1 3 3 grayProbe 1 1
     (by decide) (by decide)⟩
